import Mathlib

/-!
Verification development for the klf-yap filesystem query and traversal
library.  Each TypeScript function relevant to the checked claims is given a
shallow embedding as an executable Lean definition, and the claims are settled
as theorems about those definitions.

Conventions used throughout the embedding:
* JavaScript strings are modelled by `String`, with character-level work done
  on `String.data : List Char`.
* JavaScript numbers that hold integral byte counts, depths and timestamps are
  modelled by `Nat`; fractional quantities (`parseFloat` results) by `ℚ`.
* Optional / possibly-`undefined` fields are modelled by `Option`; JavaScript
  truthiness of a numeric field `x` (`if (x) ...`) is modelled explicitly as
  `x` being present *and* non-zero.
* Regular-expression patterns exercised by the claims are literal patterns
  (such as `/foo/`), so regex execution is modelled as literal substring
  search with the `lastIndex` bookkeeping of a JavaScript global regex.
-/

/-! ### Content Scanner: src/fs/FileContentSearcher.ts -/

/-- Position record of a content match (`FileContentMatchPosition`):
`line`, `col` and character `index`.  The `filename` field is omitted, it is
copied verbatim from the file object. -/
structure SearchPos where
  line : Nat
  col : Nat
  index : Nat
  deriving Repr, DecidableEq

/-- One `next()` result (`FileContentSearchResult`): `value` is `none` exactly
when `done` is `true` in the searcher of src/fs/FileContentSearcher.ts. -/
structure SearchStep where
  done : Bool
  value : Option SearchPos
  deriving Repr, DecidableEq

/-- First index `i ≥` the running index at which `pat` occurs in the remaining
character list; the running index is threaded so the returned index is
absolute. -/
def findFromAux (pat : List Char) : List Char → Nat → Option Nat
  | [], i => if pat.isEmpty then some i else none
  | c :: rest, i =>
    if pat.isPrefixOf (c :: rest) then some i
    else findFromAux pat rest (i + 1)

/-- First occurrence of `pat` in `cs` at an index `≥ start`
(`none` when `start` exceeds the length, as for a JavaScript global regex
whose `lastIndex` is past the end). -/
def findFrom (cs pat : List Char) (start : Nat) : Option Nat :=
  if start ≤ cs.length then findFromAux pat (cs.drop start) start else none

/-- Outcome of one `RegExp.exec` call of a global literal pattern: the match
index (if any) and the updated `lastIndex` (reset to 0 on failure). -/
structure ExecOut where
  found : Option Nat
  lastIndex : Nat
  deriving Repr, DecidableEq

/-- `criteria.exec(content)` for a global regex whose source is the literal
string `pat`: searches from `lastIndex`, and on success advances `lastIndex`
to the end of the match. -/
def execG (content pat : String) (li : Nat) : ExecOut :=
  match findFrom content.data pat.data li with
  | some i => ⟨some i, i + pat.length⟩
  | none => ⟨none, 0⟩

/-- State of a `FileContentSearcher` (src/fs/FileContentSearcher.ts):
`fileText` stands for the on-disk file contents returned by
`file.readFileSync`, `pat` for the literal source of the compiled
`criteria` regex. -/
structure FCSearcher where
  fileText : String
  pat : String
  content : String
  isFresh : Bool
  lastMatch : Option Nat
  lastIndex : Nat
  pos : SearchPos
  deriving Repr, DecidableEq

/-- A freshly constructed searcher: `content` empty, `isFresh` true and the
constructor's initial position `{ line: 0, col: 0, index: 0 }`. -/
def FCSearcher.init (fileText pat : String) : FCSearcher :=
  ⟨fileText, pat, "", true, none, 0, ⟨0, 0, 0⟩⟩

/-- One step of the position walk in `next()`: a newline advances the line and
resets the column, any other character advances the column; the index always
advances. -/
def posStep (p : SearchPos) (c : Char) : SearchPos :=
  if c = '\n' then ⟨p.line + 1, 0, p.index + 1⟩ else ⟨p.line, p.col + 1, p.index + 1⟩

/-- The `for (let i = this.position.index, max = lastMatch.index + 1; i < max; i++)`
walk of `next()`: folds `posStep` over the characters from the stored position
index up to and including the match index (the `+ 1` upper bound is the
source's). -/
def walkTo (content : String) (p : SearchPos) (mIdx : Nat) : SearchPos :=
  ((content.data.drop p.index).take (mIdx + 1 - p.index)).foldl posStep p

/-- `FileContentSearcher.next()` of src/fs/FileContentSearcher.ts.  On the
first call the file text is loaded and the first `exec` runs (the source sets
`lastIndex = -1`, which `ToLength` clamps to 0); each call reports the match
found by the previous `exec` and runs the next one.  Returns the updated
searcher and the frozen `{done, value}` record. -/
def FCSearcher.next (st : FCSearcher) : FCSearcher × SearchStep :=
  let st1 := if st.content = "" then { st with content := st.fileText } else st
  let st2 :=
    if st1.isFresh then
      let e := execG st1.content st1.pat 0
      { st1 with pos := ⟨1, 0, 0⟩, lastMatch := e.found, lastIndex := e.lastIndex,
                 isFresh := false }
    else st1
  match st2.lastMatch with
  | none => (st2, ⟨true, none⟩)
  | some mIdx =>
    let newPos := walkTo st2.content st2.pos mIdx
    let e := execG st2.content st2.pat st2.lastIndex
    ({ st2 with pos := newPos, lastMatch := e.found, lastIndex := e.lastIndex },
     ⟨false, some newPos⟩)

/-- Drive a searcher until `next()` reports no value, collecting the reported
positions; the fuel bounds the number of calls. -/
def runMatches : FCSearcher → Nat → List SearchPos
  | _, 0 => []
  | st, fuel + 1 =>
    let r := st.next
    match r.2.value with
    | some p => p :: runMatches r.1 fuel
    | none => []

/-- All match positions reported for a file with text `fileText` scanned with
the literal pattern `pat`, in report order. -/
def collectMatches (fileText pat : String) : List SearchPos :=
  runMatches (FCSearcher.init fileText pat) (fileText.length + 2)

/-! ### Entry model: src/fs/FileObject.ts

A `FileObject` wraps raw stat data plus traversal-derived structure.  The
fields consulted by the claims are modelled; `children` and the mirrored
link-children are not consulted by any predicate or matcher modelled here.
`content` stands for the text `readFileSync` would return for the entry. -/

/-- The raw type bits of a NodeJS `StatsBase` (each `isX()` accessor). -/
structure StatBits where
  file : Bool := false
  directory : Bool := false
  symlink : Bool := false
  blockDevice : Bool := false
  characterDevice : Bool := false
  fifo : Bool := false
  socket : Bool := false
  deriving Repr, DecidableEq

/-- The non-recursive fields of a `FileObject`. -/
structure FileMeta where
  stats : StatBits
  fullPath : String
  name : String
  size : Nat
  atimeMs : Nat
  ctimeMs : Nat
  birthtimeMs : Nat
  linkTargetName : Option String
  error : Option String
  content : String
  deriving Repr, DecidableEq

/-- A `FileObject`: its metadata plus the optional resolved `linkTarget`,
which is itself a `FileObject`. -/
inductive FileObj where
  | mk (meta : FileMeta) (linkTarget : Option FileObj)

def FileObj.meta : FileObj → FileMeta
  | .mk m _ => m

def FileObj.linkTarget : FileObj → Option FileObj
  | .mk _ lt => lt

def FileObj.fullPath (e : FileObj) : String := e.meta.fullPath

def FileObj.name (e : FileObj) : String := e.meta.name

def FileObj.size (e : FileObj) : Nat := e.meta.size

def FileObj.atimeMs (e : FileObj) : Nat := e.meta.atimeMs

def FileObj.ctimeMs (e : FileObj) : Nat := e.meta.ctimeMs

def FileObj.birthtimeMs (e : FileObj) : Nat := e.meta.birthtimeMs

def FileObj.content (e : FileObj) : String := e.meta.content

/-- `typeof this.linkTargetName === 'string' && this.linkTargetName.length > 0`,
the first disjunct of `FileObject.isSymbolicLink`. -/
def linkNameNonempty (m : FileMeta) : Bool :=
  match m.linkTargetName with
  | some t => decide (0 < t.length)
  | none => false

def FileObj.isFile (e : FileObj) : Bool := e.meta.stats.file

/-- `FileObject.isSymbolicLink`: true when a non-empty link-target name is
present, otherwise the raw stat bit. -/
def FileObj.isSymbolicLink (e : FileObj) : Bool :=
  linkNameNonempty e.meta || e.meta.stats.symlink

/-- `FileObject.isDirectory`: true when the entry is a symbolic link whose
resolved target is a directory, otherwise the raw stat bit.  The symbolic-link
test is the body of `isSymbolicLink`, inlined so the recursion is structural
on the nested `linkTarget`. -/
def FileObj.isDirectory : FileObj → Bool
  | .mk m lt =>
    ((linkNameNonempty m || m.stats.symlink) &&
      (match lt with
       | some t => FileObj.isDirectory t
       | none => false)) || m.stats.directory

def FileObj.isBlockDevice (e : FileObj) : Bool := e.meta.stats.blockDevice

def FileObj.isCharacterDevice (e : FileObj) : Bool := e.meta.stats.characterDevice

def FileObj.isFIFO (e : FileObj) : Bool := e.meta.stats.fifo

def FileObj.isSocket (e : FileObj) : Bool := e.meta.stats.socket

/-- The `FileObjectType` union of src/fs/FileTypedefs.ts. -/
inductive FileObjectType where
  | file
  | directory
  | socket
  | fifo
  | link
  | blockDevice
  | characterDevice
  | unknown
  deriving Repr, DecidableEq

def typeNameStr : FileObjectType → String
  | .file => "file"
  | .directory => "directory"
  | .socket => "socket"
  | .fifo => "FIFO"
  | .link => "link"
  | .blockDevice => "blockDevice"
  | .characterDevice => "characterDevice"
  | .unknown => "unknown"

/-- `FileObject.typeName`: the first matching predicate in source order. -/
def FileObj.typeName (e : FileObj) : FileObjectType :=
  if e.isDirectory then .directory
  else if e.isFile then .file
  else if e.isBlockDevice then .blockDevice
  else if e.isCharacterDevice then .characterDevice
  else if e.isSymbolicLink then .link
  else if e.isFIFO then .fifo
  else if e.isSocket then .socket
  else .unknown

/-- `FileObject.getDepth`: the number of path separators (`/`) in a path. -/
def getDepth (pathLike : String) : Nat :=
  pathLike.data.countP (fun c => c == '/')

/-- The `depth` field set by the `FileObject` constructor from `fullPath`. -/
def FileObj.depth (e : FileObj) : Nat := getDepth e.fullPath

/-- `s.endsWith t` on character lists (JavaScript `String.endsWith`). -/
def strEndsWith (s t : String) : Bool :=
  t.data.isSuffixOf s.data

/-- `s.startsWith t` on character lists (JavaScript `String.startsWith`). -/
def strStartsWith (s t : String) : Bool :=
  t.data.isPrefixOf s.data

/-- The constructor's trailing-separator strip of `fullPath`. -/
def stripTrailingSep (s : String) : String :=
  if strEndsWith s "/" then String.mk s.data.dropLast else s

/-- The constructor's derivation of `name` from `fullPath`
(`fullPath.slice(fullPath.lastIndexOf(path.sep) + 1)`). -/
def afterLastSep (s : String) : String :=
  String.mk ((s.data.reverse.takeWhile (fun c => c != '/')).reverse)

/-- `FileSystem.createPlaceholder`: a `FileObject` built from a stat record
whose every type accessor returns false and every numeric field is zero,
carrying the probe error. -/
def createPlaceholder (fullPath : String) (err : String) : FileObj :=
  let fp := stripTrailingSep fullPath
  .mk { stats := {}, fullPath := fp, name := afterLastSep fp, size := 0,
        atimeMs := 0, ctimeMs := 0, birthtimeMs := 0,
        linkTargetName := none, error := some err, content := "" } none

/-! ### Query model: src/fs/FileTypedefs.ts -/

/-- A name pattern (`string | RegExp`): regexes carry their source text (for
the interpolated failure messages) and their test function. -/
inductive NamePat where
  | lit (s : String)
  | re (src : String) (test : String → Bool)

def NamePat.display : NamePat → String
  | .lit s => s
  | .re src _ => "/" ++ src ++ "/"

/-- A content pattern (`string | RegExp`): regexes exercised by the claims are
literal patterns, so a regex is carried as its literal source. -/
inductive ContainsPat where
  | str (s : String)
  | re (src : String)
  deriving Repr, DecidableEq

/-- The `Partial<IFileSystemQuery>` fields consulted by the matchers.  `none`
models an absent (`undefined`) field; `hasOnContains` models
`typeof criteria.onContains === 'function'`. -/
structure FSQuery where
  minSize : Option Nat := none
  maxSize : Option Nat := none
  minDepth : Option Nat := none
  maxDepth : Option Nat := none
  endsWith : Option NamePat := none
  startsWith : Option NamePat := none
  minAccessTime : Option Nat := none
  maxAccessTime : Option Nat := none
  minChangeTime : Option Nat := none
  maxChangeTime : Option Nat := none
  minCreateTime : Option Nat := none
  maxCreateTime : Option Nat := none
  isType : Option (List FileObjectType) := none
  containsPat : Option ContainsPat := none
  minMatches : Option Nat := none
  maxMatches : Option Nat := none
  hasOnContains : Bool := false
  bigint : Option Bool := none
  ignoreWhitespace : Bool := false
  ignoreCase : Bool := false

/-- The whitespace relaxation of `createCompleteFSQ`:
`contains.split(/\s+/).join('\\s+')`.  The boolean records whether the
previous character was whitespace (a run contributes one `\s+`). -/
def relaxAux : List Char → Bool → String
  | [], _ => ""
  | c :: rest, prevWs =>
    if c.isWhitespace then
      (if prevWs then "" else "\\s+") ++ relaxAux rest true
    else String.singleton c ++ relaxAux rest false

def relaxWs (s : String) : String := relaxAux s.data false

/-- The `contains` normalization of `createCompleteFSQ`
(src/fs/FileTypedefs.ts): a string pattern is compiled to a regex only when
`ignoreWhitespace` is set; otherwise it is left as a plain string. -/
def normalizeContains (c : Option ContainsPat) (ignoreWhitespace : Bool) :
    Option ContainsPat :=
  match c with
  | some (.str s) => if ignoreWhitespace then some (.re (relaxWs s)) else some (.str s)
  | x => x

/-- The fields of `createCompleteFSQ` that matter to the matchers: the
`contains` normalization plus the `bigint === true` coercion of
`createCompleteRPL`. -/
def createCompleteFSQ (q : FSQuery) : FSQuery :=
  { q with containsPat := normalizeContains q.containsPat q.ignoreWhitespace,
           bigint := some (q.bigint = some true) }

/-! ### Matchers: FileObject.matchSimpleCriteria and FileObject.matchCriteria -/

/-- Chains two optional violations: the source's `if ... else if ...`. -/
def orViol (a b : Option String) : Option String :=
  match a with
  | some m => some m
  | none => b

/-- `minSize` guard of `matchSimpleCriteria`:
`if (minSize && this.size < minSize)`, with its message. -/
def vMinSize (e : FileObj) (q : FSQuery) : Option String :=
  match q.minSize with
  | some v =>
    if v != 0 && decide (e.size < v) then
      some ("minSize: " ++ (e.fullPath ++ (" size " ++ (toString e.size ++ (" < " ++ toString v)))))
    else none
  | none => none

/-- `maxSize` guard of `matchSimpleCriteria`. -/
def vMaxSize (e : FileObj) (q : FSQuery) : Option String :=
  match q.maxSize with
  | some v =>
    if v != 0 && decide (e.size > v) then
      some ("maxSize: " ++ (e.fullPath ++ (" size " ++ (toString e.size ++ (" > " ++ toString v)))))
    else none
  | none => none

/-- `minDepth` guard of `matchSimpleCriteria`. -/
def vMinDepth (e : FileObj) (q : FSQuery) : Option String :=
  match q.minDepth with
  | some v =>
    if v != 0 && decide (e.depth < v) then
      some ("minDepth: " ++ (e.fullPath ++ (" depth " ++ (toString e.depth ++ (" < " ++ toString v)))))
    else none
  | none => none

/-- `maxDepth` guard of `matchSimpleCriteria`. -/
def vMaxDepth (e : FileObj) (q : FSQuery) : Option String :=
  match q.maxDepth with
  | some v =>
    if v != 0 && decide (e.depth > v) then
      some ("maxDepth: " ++ (e.fullPath ++ (" depth " ++ (toString e.depth ++ (" > " ++ toString v)))))
    else none
  | none => none

/-- The `typeof criteria.endsWith === 'string'` guard of
`matchSimpleCriteria`. -/
def vEndsWithLit (e : FileObj) (q : FSQuery) : Option String :=
  match q.endsWith with
  | some (.lit s) =>
    if !(strEndsWith e.name s) then
      some ("endsWith: " ++ (e.fullPath ++ (" DOES NOT MATCH " ++ s)))
    else none
  | _ => none

/-- The `criteria.endsWith instanceof RegExp` guard of
`matchSimpleCriteria`. -/
def vEndsWithRe (e : FileObj) (q : FSQuery) : Option String :=
  match q.endsWith with
  | some (.re src t) =>
    if !(t e.name) then
      some ("endsWith: " ++ (e.fullPath ++ (" DOES NOT MATCH " ++ NamePat.display (.re src t))))
    else none
  | _ => none

/-- The `typeof criteria.startsWith === 'string'` guard of
`matchSimpleCriteria`. -/
def vStartsWithLit (e : FileObj) (q : FSQuery) : Option String :=
  match q.startsWith with
  | some (.lit s) =>
    if !(strStartsWith e.name s) then
      some ("startsWith: " ++ (e.fullPath ++ (" DOES NOT MATCH " ++ s)))
    else none
  | _ => none

/-- The `criteria.startsWith instanceof RegExp` guard of
`matchSimpleCriteria`. -/
def vStartsWithRe (e : FileObj) (q : FSQuery) : Option String :=
  match q.startsWith with
  | some (.re src t) =>
    if !(t e.name) then
      some ("startsWith: " ++ (e.fullPath ++ (" DOES NOT MATCH " ++ NamePat.display (.re src t))))
    else none
  | _ => none

/-- The `if (this.isFile()) { ... }` size block of `matchSimpleCriteria`:
the size guards apply only to files. -/
def sizeViolation (e : FileObj) (q : FSQuery) : Option String :=
  if e.isFile then orViol (vMinSize e q) (vMaxSize e q) else none

/-- The first failing guard of `FileObject.matchSimpleCriteria`, in the
source's evaluation order: the size pair applies only to files, then
depth-min, depth-max, suffix (string then regex), prefix (string then
regex). -/
def simpleViolation (e : FileObj) (q : FSQuery) : Option String :=
  orViol (sizeViolation e q)
    (orViol (vMinDepth e q)
      (orViol (vMaxDepth e q)
        (orViol (vEndsWithLit e q)
          (orViol (vEndsWithRe e q)
            (orViol (vStartsWithLit e q) (vStartsWithRe e q))))))

/-- `FileObject.matchSimpleCriteria`: invokes its callback with `false` and
the first failing guard's message, or with `true` (and no reason). -/
def matchSimpleCriteria (e : FileObj) (q : FSQuery) : Bool × Option String :=
  match simpleViolation e q with
  | some m => (false, some m)
  | none => (true, none)

/-- `maxAccessTime` guard of `matchCriteria`. -/
def vMaxAccessTime (e : FileObj) (q : FSQuery) : Option String :=
  match q.maxAccessTime with
  | some v =>
    if v != 0 && decide (e.atimeMs > v) then
      some ("maxAccessTime: " ++ (e.fullPath ++ (" atime " ++ (toString e.atimeMs ++ (" > " ++ toString v)))))
    else none
  | none => none

/-- `minAccessTime` guard of `matchCriteria`. -/
def vMinAccessTime (e : FileObj) (q : FSQuery) : Option String :=
  match q.minAccessTime with
  | some v =>
    if v != 0 && decide (e.atimeMs < v) then
      some ("minAccessTime: " ++ (e.fullPath ++ (" atime " ++ (toString e.atimeMs ++ (" < " ++ toString v)))))
    else none
  | none => none

/-- `maxChangeTime` guard of `matchCriteria`. -/
def vMaxChangeTime (e : FileObj) (q : FSQuery) : Option String :=
  match q.maxChangeTime with
  | some v =>
    if v != 0 && decide (e.ctimeMs > v) then
      some ("maxChangeTime: " ++ (e.fullPath ++ (" ctime " ++ (toString e.ctimeMs ++ (" > " ++ toString v)))))
    else none
  | none => none

/-- `minChangeTime` guard of `matchCriteria`. -/
def vMinChangeTime (e : FileObj) (q : FSQuery) : Option String :=
  match q.minChangeTime with
  | some v =>
    if v != 0 && decide (e.ctimeMs < v) then
      some ("minChangeTime: " ++ (e.fullPath ++ (" ctime " ++ (toString e.ctimeMs ++ (" < " ++ toString v)))))
    else none
  | none => none

/-- `maxCreateTime` guard of `matchCriteria` (its message says `atime`,
as in the source). -/
def vMaxCreateTime (e : FileObj) (q : FSQuery) : Option String :=
  match q.maxCreateTime with
  | some v =>
    if v != 0 && decide (e.birthtimeMs > v) then
      some ("maxCreateTime: " ++ (e.fullPath ++ (" atime " ++ (toString e.birthtimeMs ++ (" > " ++ toString v)))))
    else none
  | none => none

/-- `minCreateTime` guard of `matchCriteria` (its message says `atime`,
as in the source). -/
def vMinCreateTime (e : FileObj) (q : FSQuery) : Option String :=
  match q.minCreateTime with
  | some v =>
    if v != 0 && decide (e.birthtimeMs < v) then
      some ("minCreateTime: " ++ (e.fullPath ++ (" atime " ++ (toString e.birthtimeMs ++ (" < " ++ toString v)))))
    else none
  | none => none

/-- `isType` guard of `matchCriteria`: applies only when `isType` is an
array, and fails when the entry's type name is not listed. -/
def vIsType (e : FileObj) (q : FSQuery) : Option String :=
  match q.isType with
  | some l =>
    if !(l.contains e.typeName) then
      some ("isType: " ++ (e.fullPath ++ (" type " ++ (typeNameStr e.typeName ++ (" NOT IN "
        ++ String.intercalate ", " (l.map typeNameStr))))))
    else none
  | none => none

/-- The `else if` chain of timestamp and type guards in
`FileObject.matchCriteria`, in source order. -/
def advancedViolation (e : FileObj) (q : FSQuery) : Option String :=
  orViol (vMaxAccessTime e q)
    (orViol (vMinAccessTime e q)
      (orViol (vMaxChangeTime e q)
        (orViol (vMinChangeTime e q)
          (orViol (vMaxCreateTime e q)
            (orViol (vMinCreateTime e q) (vIsType e q))))))

/-- The structural part of `FileObject.matchCriteria`: `matchSimpleCriteria`
(whose failure reason is dropped, the outer callback receives only `false`),
then the timestamp/type chain. -/
def structuralCheck (e : FileObj) (q : FSQuery) : Bool × Option String :=
  match matchSimpleCriteria e q with
  | (false, _) => (false, none)
  | (true, _) =>
    match advancedViolation e q with
    | some m => (false, some m)
    | none => (true, none)

/-- Observable outcome of `FileObject.matchCriteria`: the callback's `success`
and `reason` arguments, plus how many times `criteria.onContains` fired. -/
structure MatchOutcome where
  success : Bool
  reason : Option String
  onContainsCalls : Nat
  deriving Repr, DecidableEq

def maxSafeInteger : Nat := 9007199254740991

/-- `typeof x === 'number' && x > 0 && x || d`. -/
def effOrDefault (o : Option Nat) (d : Nat) : Nat :=
  match o with
  | some v => if 0 < v then v else d
  | none => d

/-- `FileObject.matchCriteria` of src/fs/FileObject.ts.  After the structural
checks, the content scan runs only when `criteria.contains` is a `RegExp`
(`contains instanceof RegExp`) and the entry is a file: the searcher is driven
to completion, `onContains` fires per match (when present, and only when
`criteria.bigint` is `true` or `false`, not `undefined`), and the count is
compared with the effective `minMatches`/`maxMatches`. -/
def matchCriteria (e : FileObj) (q : FSQuery) : MatchOutcome :=
  match structuralCheck e q with
  | (false, r) => ⟨false, r, 0⟩
  | (true, _) =>
    match q.containsPat with
    | some (.re src) =>
      if e.isFile then
        let maxM := effOrDefault q.maxMatches maxSafeInteger
        let minM := effOrDefault q.minMatches 1
        let m := (collectMatches e.content src).length
        if m = 0 then
          ⟨false, some ("minMatches: " ++ (e.fullPath ++ (" contains ZERO instances of /" ++ (src ++ "/")))), 0⟩
        else
          let calls := if q.hasOnContains && q.bigint.isSome then m else 0
          if m < minM then
            ⟨false, some ("minMatches: " ++ (e.fullPath ++ (" contains /" ++ (src ++ ("/  ("
              ++ (toString m ++ (" of " ++ (toString minM ++ ")")))))))), calls⟩
          else if m > maxM then
            ⟨false, some ("maxMatches: " ++ (e.fullPath ++ (" contains /" ++ (src ++ ("/  ("
              ++ (toString m ++ (" of " ++ toString maxM))))))), calls⟩
          else ⟨true, none, calls⟩
      else ⟨true, none, 0⟩
    | _ => ⟨true, none, 0⟩

/-! ### Tree Walker: DiskFileSystem.lstatSync / DiskFileSystem.lstatCallback
(src/fs/FileSystem.ts)

The filesystem state is a finite tree without symbolic links; `bad` is a node
whose `lstat` probe fails (e.g. a permission error).  The walkers are
compared on the structure the claims name: full path, classification,
children (with `none` for a never-populated `children` field) and the error
placeholder.  The callback walker returns `none` when its completion callback
is never invoked for the probed path; its children are listed in `readdir`
order, modelling the deterministic sequential execution of the task queue. -/

/-- A filesystem node: a file, a directory with named entries, or a node
whose probe fails. -/
inductive FSNode where
  | file (size : Nat)
  | dir (entries : List (String × FSNode))
  | bad
  deriving Repr

/-- The `StatOptions` consulted by the walkers.  `wantChildren` is tri-state
because the sync walker tests `wantChildren === false` while the callback
walker tests its truthiness. -/
structure WalkOpts where
  wantChildren : Option Bool := none
  recursive : Bool := false
  throwErrorsOpt : Bool := true
  deriving Repr, DecidableEq

/-- The structure of a produced Entry that claim C2 compares: full path,
classification, the `children` field (`none` when never populated), and error
placeholders. -/
inductive WEntry where
  | file (fullPath : String)
  | dir (fullPath : String) (children : Option (List WEntry))
  | placeholder (fullPath : String) (err : String)
  deriving Repr

mutual

/-- `DiskFileSystem.lstatSync`: probes the path (a failing probe is caught by
this call's `try/catch` and yields a placeholder for the probed path), returns
a file entry directly, and populates a directory unless
`wantChildren === false`.  A child probe failure inside `populateAndReturn`
propagates to this call's catch, so the whole directory collapses to a single
placeholder.  `lstatSync` never consults `throwErrors`. -/
def lstatSyncModel (p : String) (o : WalkOpts) (node : FSNode) : WEntry :=
  match node with
  | .bad => .placeholder p "EACCES"
  | .file _ => .file p
  | .dir es =>
    if o.wantChildren = some false then .dir p none
    else
      match syncChildren p o es with
      | .ok cs => .dir p (some cs)
      | .error msg => .placeholder p msg

/-- The child loop of `populateAndReturn` in `lstatSync`: each child is
probed (`fs.lstatSync`, whose failure throws out of the loop), symlink-free
children are either recursed into (directories under `recursive`, via a fresh
`lstatSync` call with its own catch) or pushed as plain entries without
children. -/
def syncChildren (p : String) (o : WalkOpts) :
    List (String × FSNode) → Except String (List WEntry)
  | [] => .ok []
  | (n, c) :: rest =>
    match c with
    | .bad => .error "EACCES"
    | .file _ =>
      (syncChildren p o rest).map (fun others => WEntry.file (p ++ "/" ++ n) :: others)
    | .dir _ =>
      let child := if o.recursive then lstatSyncModel (p ++ "/" ++ n) o c
                   else WEntry.dir (p ++ "/" ++ n) none
      (syncChildren p o rest).map (fun others => child :: others)

end

mutual

/-- Whether `DiskFileSystem.lstatCallback` ever invokes its completion
callback, and with which entry under one fixed (readdir-order) completion
schedule: `some e` when the completion callback is invoked with entry `e`,
`none` when it is never invoked.  A directory is populated only when
`o.wantChildren || o.recursive` is truthy; its
`children.length === files.length` join is tested only inside a child's
completion callback, so an empty directory never completes.  A `bad` node
yields `none`: the error path of the `fs.lstat` callback throws
(`throw err` under `throwErrors`, otherwise a TypeError on the undefined
`stats`), so no callback fires.  Whether the callback fires at all does not
depend on the completion order of sibling probes, so this function is used
only for delivery/non-delivery facts; the order in which the source pushes
children (completion order of the asynchronous probes) is captured by the
relation `CbDelivers` below. -/
def lstatCallbackModel (p : String) (o : WalkOpts) (node : FSNode) : Option WEntry :=
  match node with
  | .bad => none
  | .file _ => some (.file p)
  | .dir es =>
    if o.wantChildren = some true || o.recursive then
      match es with
      | [] => none
      | _ :: _ =>
        match cbChildren p o es with
        | some cs => some (.dir p (some cs))
        | none => none
    else some (.dir p none)

/-- The child fan-out of `populateAndReturn` in `lstatCallback`: every child
is probed through a full `lstatCallback` call with the same options; the
parent completes only once every child's callback has fired.  The list
returned here is in `readdir` order, one fixed schedule; the source's
`children.push` happens in each child's completion callback, so the real
child order is completion order — see `CbChildren` for the order-faithful
relation.  This function is only used for facts that do not depend on the
order (whether anything is delivered at all). -/
def cbChildren (p : String) (o : WalkOpts) :
    List (String × FSNode) → Option (List WEntry)
  | [] => some []
  | (n, c) :: rest =>
    match lstatCallbackModel (p ++ "/" ++ n) o c, cbChildren p o rest with
    | some child, some others => some (child :: others)
    | _, _ => none

end

mutual

/-- No `bad` node and no empty directory anywhere in the tree. -/
def noBadNoEmpty : FSNode → Bool
  | .file _ => true
  | .bad => false
  | .dir es => !es.isEmpty && goodEntries es

def goodEntries : List (String × FSNode) → Bool
  | [] => true
  | (_, c) :: rest => noBadNoEmpty c && goodEntries rest

end

/-- Structural identity of two produced entries up to the order of each
directory's children: same full path, same classification, same error, and
the same children *set* at every node (one child list a permutation of the
other, with recursively identical members).  This is the comparison claim C2
names: "the same fullPath, classification, children set, and linkTarget
structure at every node". -/
inductive EntryPermEq : WEntry → WEntry → Prop where
  | file (p : String) : EntryPermEq (.file p) (.file p)
  | placeholder (p err : String) : EntryPermEq (.placeholder p err) (.placeholder p err)
  | dirNone (p : String) : EntryPermEq (.dir p none) (.dir p none)
  | dirSome {p : String} {l lm lr : List WEntry}
      (h1 : l.Perm lm) (h2 : List.Forall₂ EntryPermEq lm lr) :
      EntryPermEq (.dir p (some l)) (.dir p (some lr))

mutual

/-- Order-faithful model of `DiskFileSystem.lstatCallback`:
`CbDelivers p o node e` holds when, under some completion order of the
asynchronous child probes, the completion callback for path `p` over `node`
is invoked with entry `e`.  A file delivers its entry directly.  A directory
with `o.wantChildren || o.recursive` falsy delivers a childless entry.  A
directory to be populated delivers only when it is non-empty (the
`children.length === files.length` join of `populateAndReturn` is tested
only inside a child's completion callback) and every child has delivered;
since `children.push(file)` runs in each child's completion callback, the
recorded child list is an arbitrary interleaving — a permutation — of the
children's delivered entries.  A `bad` node, whose `fs.lstat` error path
throws instead of calling back, delivers nothing (no rule). -/
inductive CbDelivers : String → WalkOpts → FSNode → WEntry → Prop where
  | file {p : String} {o : WalkOpts} {sz : Nat} :
      CbDelivers p o (.file sz) (.file p)
  | dirNoChildren {p : String} {o : WalkOpts} {es : List (String × FSNode)}
      (hgate : ¬(o.wantChildren = some true ∨ o.recursive = true)) :
      CbDelivers p o (.dir es) (.dir p none)
  | dirPopulated {p : String} {o : WalkOpts} {es : List (String × FSNode)}
      {l lp : List WEntry}
      (hgate : o.wantChildren = some true ∨ o.recursive = true)
      (hne : es ≠ [])
      (hch : CbChildren p o es l)
      (hperm : l.Perm lp) :
      CbDelivers p o (.dir es) (.dir p (some lp))

/-- The children of a populated directory, matched one-to-one with its
`readdir` entries (each child probed by a full `lstatCallback` call with the
same options); the completion-order freedom is applied by `dirPopulated`'s
permutation. -/
inductive CbChildren : String → WalkOpts → List (String × FSNode) → List WEntry → Prop where
  | nil {p : String} {o : WalkOpts} : CbChildren p o [] []
  | cons {p n : String} {o : WalkOpts} {c : FSNode} {rest : List (String × FSNode)}
      {e : WEntry} {l : List WEntry}
      (hc : CbDelivers (p ++ "/" ++ n) o c e)
      (hrest : CbChildren p o rest l) :
      CbChildren p o ((n, c) :: rest) (e :: l)

end

/-! ### Path expression front end: FileUtilImpl.readPathlike
(src/util/FileUtil.ts) -/

/-- `reHasWildcards = /[\*\?\[\]]/` applied to a string. -/
def hasWildcardStr (s : String) : Bool :=
  s.data.any (fun c => c == '*' || c == '?' || c == '[' || c == ']')

/-- Substring test, used for `part.indexOf('**') > -1` checks. -/
def containsSubstr (s sub : String) : Bool :=
  (findFrom s.data sub.data 0).isSome

/-- Split a character list at every `/`. -/
def splitSepAux : List Char → List Char → List String
  | [], acc => [String.mk acc.reverse]
  | c :: rest, acc =>
    if c = '/' then String.mk acc.reverse :: splitSepAux rest []
    else splitSepAux rest (c :: acc)

/-- `pathLike.split(rePathSplitter).filter(p => p.length)`. -/
def splitParts (s : String) : List String :=
  (splitSepAux s.data []).filter (fun p => p ≠ "")

/-- The glob-to-regex character rewrites of `RegExUtil.createFileRegex`:
`.` to an escaped dot, `?` to `.`, `*` to `.*`. -/
def globTransform (s : String) : String :=
  String.join (s.data.map fun c =>
    if c = '.' then "\\."
    else if c = '?' then "."
    else if c = '*' then ".*"
    else String.singleton c)

/-- JavaScript `indexOf` result with `-1` for not-found, as an `Int`. -/
def optIdx : Option Nat → Int
  | some v => v
  | none => -1

/-- `s.indexOf(c, cur + 1)` where `cur` may be `-1`. -/
def nextIdx (cs : List Char) (c : Char) (cur : Option Nat) : Option Nat :=
  findFrom cs [c] (match cur with | some v => v + 1 | none => 0)

/-- The bracket-validation loop of `RegExUtil.createFileRegex`, faithfully
including its comparisons against the `-1` sentinels.  Returns the thrown
message, if any. -/
def bracketLoop (input : String) (cs : List Char) :
    Option Nat → Option Nat → Nat → Option String
  | _, _, 0 => none
  | n, x, fuel + 1 =>
    if optIdx x > optIdx n then some ("Bad range expression in pattern: " ++ input)
    else if x = none then some ("Unclosed range expression in pattern: " ++ input)
    else
      let n2 := nextIdx cs '[' n
      let x2 := nextIdx cs ']' x
      if n2 = none ∧ x2 = none then none else bracketLoop input cs n2 x2 fuel

/-- `RegExUtil.createFileRegex input` as far as control flow is concerned:
`some msg` when it throws, `none` when it returns a regex. -/
def createFileRegexCheck (input : String) : Option String :=
  let cs := (globTransform input).data
  let n0 := findFrom cs ['['] 0
  let x0 := findFrom cs [']'] 0
  if n0.isSome || x0.isSome then bracketLoop input cs n0 x0 (cs.length + 2)
  else none

/-- Observable events of the wildcard branch of `readPathlike`: an error
thrown by `sendSingleResult` (or rethrown by the catch), an error delivered
through the callback's error argument, or the launch of a recursive globstar
walk. -/
inductive RPLEvent where
  | errorThrown (msg : String)
  | errorCallback (msg : String)
  | globstarWalk (leftExpr rightExpr : String)
  deriving Repr, DecidableEq

/-- How `sendSingleResult` routes an error message:
`if (query.throwErrors === true && error) throw error`, otherwise the error
is passed to the callback. -/
def mkErrorEvent (throwErrors : Bool) (msg : String) : RPLEvent :=
  if throwErrors then .errorThrown msg else .errorCallback msg

/-- The `for (const [index, part] of parts.entries())` loop of
`readPathlike`'s wildcard branch.  `prefx` is the loop's `prefix` variable
(the empty string models both `undefined` and a falsy `''`); a part is
examined only while `prefix` is falsy.  On the first wildcard part the right
pattern is compiled first (`createFileRegex` may throw, which the catch
routes like any other error), then the globstar constraints are checked; the
two malformed-globstar cases return a single error event, a valid globstar
launches the recursive walk and the loop continues. -/
def rplLoop (pathLike : String) (throwErrors : Bool) (parts : List String) :
    List String → Nat → String → List RPLEvent
  | [], _, _ => []
  | part :: rest, i, prefx =>
    if prefx = "" then
      if hasWildcardStr part then
        let leftExpr := String.intercalate "/" (parts.take i)
        let rightExpr := String.intercalate "/" (parts.drop (i + 1))
        match createFileRegexCheck rightExpr with
        | some err => [mkErrorEvent throwErrors err]
        | none =>
          if containsSubstr part "**" then
            if part = "**" then
              if containsSubstr rightExpr "**" then
                [mkErrorEvent throwErrors
                  ("Expression " ++ pathLike ++ " cannot contain more than one globstar")]
              else
                .globstarWalk leftExpr rightExpr ::
                  rplLoop pathLike throwErrors parts rest (i + 1) leftExpr
            else
              [mkErrorEvent throwErrors
                ("Expression " ++ pathLike ++ " is invalid; Globstar must appear by itself, not " ++ part)]
          else rplLoop pathLike throwErrors parts rest (i + 1) leftExpr
      else rplLoop pathLike throwErrors parts rest (i + 1) prefx
    else rplLoop pathLike throwErrors parts rest (i + 1) prefx

/-- Outcome of `FileUtilImpl.readPathlike` on an absolute path expression:
either the wildcard branch runs (with its observable events) or the
expression is walked literally via `fs.stat`. -/
inductive RPLOutcome where
  | wildcard (events : List RPLEvent)
  | literalWalk
  deriving Repr, DecidableEq

/-- `readPathlike` front end for an absolute `pathLike` (a relative one is
first resolved against the package root, which cannot introduce or remove
wildcard characters). -/
def readPathlikeOutcome (pathLike : String) (throwErrors : Bool) : RPLOutcome :=
  if hasWildcardStr pathLike then
    let parts := splitParts pathLike
    .wildcard (rplLoop pathLike throwErrors parts parts 0 "")
  else .literalWalk

/-! ### Query entry point: FileUtilImpl.fsq (src/util/FileUtil.ts) -/

/-- The `expr` field of a caller-supplied query object (possibly absent). -/
structure RPLQueryIn where
  expr : Option (List String) := none
  deriving Repr, DecidableEq

/-- First argument of `fsq`: a path, an array of paths, or a query object. -/
inductive FsqFirstArg where
  | path (s : String)
  | paths (l : List String)
  | query (q : RPLQueryIn)
  deriving Repr, DecidableEq

/-- The `pathLikes` extraction of `fsq`. -/
def fsqPathLikes : FsqFirstArg → List String
  | .paths l => l
  | .path s => [s]
  | .query q => q.expr.getD []

/-- The `expr` of the query `fsq` normalizes.  An array first argument has
`typeof 'object'`, so it is itself fed to `createCompleteFSQ` and the second
argument's query is ignored; its `expr` property is `undefined`, which
normalizes to `[]`. -/
def fsqQueryExpr (a1 : FsqFirstArg) (a2 : Option RPLQueryIn) : List String :=
  match a1 with
  | .path _ =>
    match a2 with
    | some q => q.expr.getD []
    | none => []
  | .paths _ => []
  | .query q => q.expr.getD []

/-- The argument handling of `FileUtilImpl.fsq` up to its empty-expression
check: the normalized query's expression list is merged with the path-like
arguments, and `fsq` throws before touching the filesystem (the
`readPathlike` loop is only reached on `.ok`) when the merged list is
empty. -/
def fsqCheck (a1 : FsqFirstArg) (a2 : Option RPLQueryIn) :
    Except String (List String) :=
  let exprs := fsqQueryExpr a1 a2 ++ fsqPathLikes a1
  if exprs.length = 0 then
    .error "FileUtil.fsq(): No path expressions were provided, nothing to do"
  else .ok exprs

/-! ### Size-bound normalization: expandSizeStrings inside createCompleteRPL
(src/fs/FileTypedefs.ts) -/

/-- The `qty` character class `[\d\._\,]`. -/
def qtyChar (c : Char) : Bool :=
  c.isDigit || c == '.' || c == '_' || c == ','

/-- The case-insensitive unit prefix class `[KMGTPEZY]`. -/
def unitStarChar (c : Char) : Bool :=
  "KMGTPEZY".data.contains c.toUpper

/-- The match of `/^(?<qty>[\d\._\,]+)(?<unit>[KMGTPEZY]*i?B)/i` against a
spec string: the `qty` and `unit` captures, or `none` when the regex does not
match.  `qty` is the maximal run of its class (the two classes are disjoint,
so no backtracking across the boundary is possible); the unit is a maximal
run of prefix letters, an optional `i`, then a mandatory `b`/`B`; trailing
characters are ignored because the pattern is not end-anchored. -/
def unitParse (rest : List Char) : Option (List Char) :=
  match rest.drop (rest.takeWhile unitStarChar).length with
  | c1 :: c2 :: _ =>
    if (c1 == 'i' || c1 == 'I') && (c2 == 'b' || c2 == 'B') then
      some (rest.takeWhile unitStarChar ++ [c1, c2])
    else if c1 == 'b' || c1 == 'B' then some (rest.takeWhile unitStarChar ++ [c1])
    else none
  | [c1] =>
    if c1 == 'b' || c1 == 'B' then some (rest.takeWhile unitStarChar ++ [c1]) else none
  | [] => none

def matchSizeSpec (s : String) : Option (List Char × List Char) :=
  if (s.data.takeWhile qtyChar).isEmpty then none
  else (unitParse (s.data.drop (s.data.takeWhile qtyChar).length)).map
    (fun unit => (s.data.takeWhile qtyChar, unit))

/-- The `unitLookup` table of `expandSizeStrings`.  Every entry is the exact
value of the source's constant as a JavaScript number; `10 ** 24` (YB) is not
exactly representable in an IEEE double, so its entry is the rounded value
the source computes. -/
def unitLookup : List (String × ℚ) :=
  [("B", 1),
   ("KB", 1000), ("KIB", 1024),
   ("MB", 10 ^ 6), ("MIB", 2 ^ 20),
   ("GB", 10 ^ 9), ("GIB", 2 ^ 30),
   ("TB", 10 ^ 12), ("TIB", 2 ^ 40),
   ("PB", 10 ^ 15), ("PIB", 2 ^ 50),
   ("EB", 10 ^ 18), ("EIB", 2 ^ 60),
   ("ZB", 10 ^ 21), ("ZIB", 2 ^ 70),
   ("YB", 999999999999999983222784), ("YIB", 2 ^ 80)]

/-- Value of a digit run. -/
def digitsVal (cs : List Char) : Nat :=
  cs.foldl (fun acc c => acc * 10 + (c.toNat - '0'.toNat)) 0

/-- `parseFloat` on a capture of the `qty` class: an integer part, an
optional dot with a fractional part, stopping at the first `_`, `,` or second
dot; `none` models `NaN` (no leading digits or lone dot). -/
def parseFloatModel (cs : List Char) : Option ℚ :=
  match cs.drop (cs.takeWhile Char.isDigit).length with
  | '.' :: rest2 =>
    if (cs.takeWhile Char.isDigit).isEmpty && (rest2.takeWhile Char.isDigit).isEmpty then
      none
    else
      some ((digitsVal (cs.takeWhile Char.isDigit) : ℚ)
        + (digitsVal (rest2.takeWhile Char.isDigit) : ℚ)
          / ((10 : ℚ) ^ (rest2.takeWhile Char.isDigit).length))
  | _ =>
    if (cs.takeWhile Char.isDigit).isEmpty then none
    else some ((digitsVal (cs.takeWhile Char.isDigit) : ℚ))

/-- `expandSizeStrings` of `createCompleteRPL` (src/fs/FileTypedefs.ts)
applied to a string spec: when the regex matches, the result is
`parseFloat(qty) * unitSize`, with `unitSize` 0 for a unit absent from the
table and `none` modelling a `NaN` quantity; when it does not match, the
function throws.  Number arithmetic is modelled exactly; the theorems about
this definition restrict themselves to products that an IEEE double
represents exactly. -/
def expandSizeStrings (spec : String) : Except String (Option ℚ) :=
  match matchSizeSpec spec with
  | some qu =>
    .ok ((parseFloatModel qu.1).map (fun v => v *
      (((unitLookup.find? (fun kv =>
          kv.1 = String.mk (qu.2.map Char.toUpper))).map Prod.snd).getD 0)))
  | none => .error ("Could not parse memory spec: " ++ spec)

/-! ### Derived notions used by the theorems -/

/-- `tag` is a character-level prefix of `r`: the rejection reason `r` names
the criterion `tag`. -/
def reasonNames (tag r : String) : Bool :=
  tag.data.isPrefixOf r.data

/-- The seven type predicates of an entry, in the claim's order. -/
def typePredicates (e : FileObj) : List Bool :=
  [e.isFile, e.isDirectory, e.isBlockDevice, e.isCharacterDevice,
   e.isSymbolicLink, e.isFIFO, e.isSocket]

/-- How many of the seven type predicates hold. -/
def countTrue (e : FileObj) : Nat :=
  (typePredicates e).count true

/-- How many raw stat type bits are set. -/
def typeBitCount (s : StatBits) : Nat :=
  (cond s.file 1 0) + (cond s.directory 1 0) + (cond s.symlink 1 0) +
  (cond s.blockDevice 1 0) + (cond s.characterDevice 1 0) +
  (cond s.fifo 1 0) + (cond s.socket 1 0)

/-- A link-target name is recorded only on entries whose raw stat bits mark a
symbolic link (true of every entry the walkers build except the mirrored
link-children manufactured by the `FileObject` constructor). -/
def linkConsistent (e : FileObj) : Prop :=
  linkNameNonempty e.meta = true → e.meta.stats.symlink = true

/-- The units of the source's table whose JavaScript constant is an exactly
representable double, with their values and the odd part of each value
(`q * oddPart < 2^53` guarantees that `q * value` is computed exactly by
double arithmetic).  `YB` is excluded: `10 ** 24` itself already rounds. -/
def exactSizeUnits : List (String × ℚ × Nat) :=
  [("B", 1, 1),
   ("KB", 1000, 5 ^ 3), ("KiB", 1024, 1),
   ("MB", 10 ^ 6, 5 ^ 6), ("MiB", 2 ^ 20, 1),
   ("GB", 10 ^ 9, 5 ^ 9), ("GiB", 2 ^ 30, 1),
   ("TB", 10 ^ 12, 5 ^ 12), ("TiB", 2 ^ 40, 1),
   ("PB", 10 ^ 15, 5 ^ 15), ("PiB", 2 ^ 50, 1),
   ("EB", 10 ^ 18, 5 ^ 18), ("EiB", 2 ^ 60, 1),
   ("ZB", 10 ^ 21, 5 ^ 21), ("ZiB", 2 ^ 70, 1),
   ("YiB", 2 ^ 80, 1)]

/-! ### Helper lemmas -/

theorem isPrefixOf_append_self (l1 l2 : List Char) :
    l1.isPrefixOf (l1 ++ l2) = true := by
  induction l1 with
  | nil => simp
  | cons c rest ih => simp [ih]

theorem reasonNames_append (tag s : String) :
    reasonNames tag (tag ++ s) = true := by
  have h : (tag ++ s).data = tag.data ++ s.data := rfl
  simp only [reasonNames, h]
  exact isPrefixOf_append_self _ _

/-! ### Claim theorems -/

/-- C1: the claim states that scanning `"foo\nbar foo\n"` with `/foo/` yields
matches at `{line:1,col:0}` and `{line:2,col:4}` and that positions are
1-based lines / 0-based columns from `{line:1,col:0,index:0}`.  The position
walk in `FileContentSearcher.next` iterates up to `lastMatch.index + 1`,
one character past the match start, so the searcher actually reports
`{line:1,col:1,index:1}` and `{line:2,col:5,index:9}` — contradicting the
claim and the source's own doc comments on `FileContentMatchPosition`
("the column where the match started", "the character offset ... where the
match started").  The third call does return `done` with a null value.  This
theorem evaluates the embedded searcher at the claim's input. -/
theorem c1_content_searcher_run :
    ((FCSearcher.init "foo\nbar foo\n" "foo").next.2
        = ⟨false, some ⟨1, 1, 1⟩⟩) ∧
    ((FCSearcher.init "foo\nbar foo\n" "foo").next.1.next.2
        = ⟨false, some ⟨2, 5, 9⟩⟩) ∧
    ((FCSearcher.init "foo\nbar foo\n" "foo").next.1.next.1.next.2
        = ⟨true, none⟩) ∧
    collectMatches "foo\nbar foo\n" "foo" = [⟨1, 1, 1⟩, ⟨2, 5, 9⟩] :=
  ⟨rfl, rfl, rfl, rfl⟩

/-- C2 counterexample: with identical options (`recursive: true`,
`wantChildren` unset) on a directory containing one empty subdirectory, the
synchronous walker returns the full tree while the callback walker never
invokes its completion callback under *any* completion order (the empty
subdirectory's join never fires, so neither does the parent's) — the two
conventions do not produce structurally identical trees. -/
theorem c2_sync_callback_differ :
    (∀ e, ¬CbDelivers "/d" ⟨none, true, true⟩ (.dir [("e", .dir [])]) e) ∧
    lstatSyncModel "/d" ⟨none, true, true⟩ (.dir [("e", .dir [])]) =
      .dir "/d" (some [.dir "/d/e" (some [])]) := by
  constructor
  · intro e h
    cases h with
    | dirNoChildren hgate => exact hgate (Or.inr rfl)
    | dirPopulated hgate hne hch hperm =>
      cases hch with
      | cons hc hrest =>
        cases hc with
        | dirNoChildren hgate2 => exact hgate2 (Or.inr rfl)
        | dirPopulated hgate2 hne2 hch2 hperm2 => exact hne2 rfl
  · rfl

/-- C3 counterexample: a normalized query whose content pattern is the
literal string `"zzz"` (with `ignoreWhitespace` unset, so `createCompleteFSQ`
leaves it a string) against a file whose text contains zero matches.
`matchCriteria` accepts the file without running the scanner and without
firing `onContains` — not the claimed `minMatches` rejection — because the
scan is gated on `contains instanceof RegExp`. -/
theorem c3_string_pattern_skips_scan :
    (matchCriteria
      (.mk { stats := { file := true }, fullPath := "/a/f.txt", name := "f.txt",
             size := 10, atimeMs := 0, ctimeMs := 0, birthtimeMs := 0,
             linkTargetName := none, error := none, content := "hello world" } none)
      (createCompleteFSQ { containsPat := some (.str "zzz"), hasOnContains := true }))
      = ⟨true, none, 0⟩ ∧
    collectMatches "hello world" "zzz" = [] :=
  ⟨rfl, rfl⟩

/-- C4 counterexample: the expression `/a/x**y` combines `**` with other
characters in a segment, and the query has `throwErrors: false`.  The
configuration error is not fatal: `sendSingleResult` throws only when
`throwErrors === true`, so here the error is delivered through the callback's
error argument and execution continues normally — contradicting the claim
that malformed-query errors are never suppressed by `throwErrors:false`. -/
theorem c4_malformed_globstar_not_fatal :
    readPathlikeOutcome "/a/x**y" false =
      .wildcard [.errorCallback
        "Expression /a/x**y is invalid; Globstar must appear by itself, not x**y"] :=
  rfl

/-- C5: the claim (and Scenario D of the spec) says a walk with
`throwErrors:false` over a directory with one unreadable entry still returns
every readable sibling plus one error placeholder for the unreadable entry.
In `DiskFileSystem.lstatSync` the child's failing `fs.lstatSync` probe throws
out of the `populateAndReturn` loop into the walker's `catch`, which replaces
the *whole directory* with a single placeholder, dropping the readable
sibling; `lstatCallback` never delivers anything for such a directory (its
child error path throws on the undefined `stats`).  This theorem evaluates
both embedded walkers at the failing input. -/
theorem c5_unreadable_child_collapses_directory :
    lstatSyncModel "/r" ⟨some true, false, false⟩
        (.dir [("good.txt", .file 5), ("bad.txt", .bad)])
      = .placeholder "/r" "EACCES" ∧
    lstatCallbackModel "/r" ⟨some true, false, false⟩
        (.dir [("good.txt", .file 5), ("bad.txt", .bad)])
      = none :=
  ⟨rfl, rfl⟩

/-- C8 counterexample: `"1KKB"` is not of the spec's form `<number><unit>`
with a unit from the table — `"KKB"` is not a recognized unit — yet
`expandSizeStrings` does not signal an error: the unit regex
`[KMGTPEZY]*i?B` matches `KKB`, the table lookup falls back to a unit size of
0, and the spec string silently parses to 0 bytes. -/
theorem c8_unknown_unit_silently_zero :
    expandSizeStrings "1KKB" = .ok (some 0) ∧
    unitLookup.find? (fun kv => kv.1 = "KKB") = none := by
  constructor
  · show Except.ok ((parseFloatModel "1".data).map (fun v => v * 0)) = Except.ok (some 0)
    simp [parseFloatModel, mul_zero]
  · rfl

/-- C9: `FileUtilImpl.fsq` merges the normalized query's expression list with
the path-like arguments and throws
`FileUtil.fsq(): No path expressions were provided, nothing to do`
whenever the merged list is empty, before any filesystem access (the
`readPathlike` loop is only reached otherwise). -/
theorem c9_fsq_empty_expressions_throw (a1 : FsqFirstArg) (a2 : Option RPLQueryIn)
    (h : fsqQueryExpr a1 a2 ++ fsqPathLikes a1 = []) :
    fsqCheck a1 a2 =
      .error "FileUtil.fsq(): No path expressions were provided, nothing to do" := by
  simp [fsqCheck, h]

/-- Witness for C9 at a concrete input: a query object with an empty
expression list and no further arguments. -/
theorem c9_fsq_empty_expressions_throw_witness :
    fsqCheck (.query ⟨some []⟩) none =
      .error "FileUtil.fsq(): No path expressions were provided, nothing to do" :=
  c9_fsq_empty_expressions_throw (.query ⟨some []⟩) none rfl

/-- C10: for a directory whose `readdir` yields zero entries, `lstatCallback`
invoked with `wantChildren` or `recursive` set never invokes its completion
callback: the `children.length === files.length` join of `populateAndReturn`
is only tested inside a child's completion callback, and an empty directory
has no children to fire it. -/
theorem c10_empty_directory_never_delivered (p : String) (o : WalkOpts)
    (h : o.wantChildren = some true ∨ o.recursive = true) :
    lstatCallbackModel p o (.dir []) = none := by
  rcases h with h | h <;> simp [lstatCallbackModel, h]

/-- Witness for C10 at a concrete input. -/
theorem c10_empty_directory_never_delivered_witness :
    lstatCallbackModel "/tmp/empty" ⟨some true, false, false⟩ (.dir []) = none :=
  c10_empty_directory_never_delivered "/tmp/empty" ⟨some true, false, false⟩ (Or.inl rfl)

theorem vMinSize_names {e : FileObj} {q : FSQuery} {r : String}
    (h : vMinSize e q = some r) : reasonNames "minSize: " r = true := by
  unfold vMinSize at h
  split at h
  · split at h
    · injection h with h; subst h; exact reasonNames_append _ _
    · simp at h
  · simp at h

theorem vMaxSize_names {e : FileObj} {q : FSQuery} {r : String}
    (h : vMaxSize e q = some r) : reasonNames "maxSize: " r = true := by
  unfold vMaxSize at h
  split at h
  · split at h
    · injection h with h; subst h; exact reasonNames_append _ _
    · simp at h
  · simp at h

theorem vMinDepth_names {e : FileObj} {q : FSQuery} {r : String}
    (h : vMinDepth e q = some r) : reasonNames "minDepth: " r = true := by
  unfold vMinDepth at h
  split at h
  · split at h
    · injection h with h; subst h; exact reasonNames_append _ _
    · simp at h
  · simp at h

theorem vMaxDepth_names {e : FileObj} {q : FSQuery} {r : String}
    (h : vMaxDepth e q = some r) : reasonNames "maxDepth: " r = true := by
  unfold vMaxDepth at h
  split at h
  · split at h
    · injection h with h; subst h; exact reasonNames_append _ _
    · simp at h
  · simp at h

theorem vEndsWithLit_names {e : FileObj} {q : FSQuery} {r : String}
    (h : vEndsWithLit e q = some r) : reasonNames "endsWith: " r = true := by
  unfold vEndsWithLit at h
  split at h
  · split at h
    · injection h with h; subst h; exact reasonNames_append _ _
    · simp at h
  · simp at h

theorem vEndsWithRe_names {e : FileObj} {q : FSQuery} {r : String}
    (h : vEndsWithRe e q = some r) : reasonNames "endsWith: " r = true := by
  unfold vEndsWithRe at h
  split at h
  · split at h
    · injection h with h; subst h; exact reasonNames_append _ _
    · simp at h
  · simp at h

theorem vStartsWithLit_names {e : FileObj} {q : FSQuery} {r : String}
    (h : vStartsWithLit e q = some r) : reasonNames "startsWith: " r = true := by
  unfold vStartsWithLit at h
  split at h
  · split at h
    · injection h with h; subst h; exact reasonNames_append _ _
    · simp at h
  · simp at h

theorem vStartsWithRe_names {e : FileObj} {q : FSQuery} {r : String}
    (h : vStartsWithRe e q = some r) : reasonNames "startsWith: " r = true := by
  unfold vStartsWithRe at h
  split at h
  · split at h
    · injection h with h; subst h; exact reasonNames_append _ _
    · simp at h
  · simp at h

theorem sizeViolation_none {e : FileObj} {q : FSQuery}
    (h : ¬(e.isFile = true ∧
      ((vMinSize e q).isSome = true ∨ (vMaxSize e q).isSome = true))) :
    sizeViolation e q = none := by
  unfold sizeViolation
  by_cases hf : e.isFile
  · have h1 : vMinSize e q = none := by
      cases hm : vMinSize e q with
      | none => rfl
      | some r => exact absurd ⟨hf, Or.inl (by simp [hm])⟩ h
    have h2 : vMaxSize e q = none := by
      cases hm : vMaxSize e q with
      | none => rfl
      | some r => exact absurd ⟨hf, Or.inr (by simp [hm])⟩ h
    simp [hf, orViol, h1, h2]
  · simp [hf]

theorem not_isSome_none {o : Option String} (h : ¬(o.isSome = true)) : o = none := by
  cases o with
  | none => rfl
  | some _ => simp at h

/-- C6: `matchSimpleCriteria` evaluates its guards in the fixed order
size (min then max, files only) → depth-min → depth-max → suffix → prefix,
short-circuiting on the first violation, and the rejection reason it passes
to the callback names that first-violated criterion.  In particular, for an
entry violating exactly one criterion the reported reason names that
criterion; a file of size 10 against `{minSize: 100}` is rejected with a
size reason even when its depth is also out of range. -/
theorem c6_simple_criteria_order (e : FileObj) (q : FSQuery) :
    ((e.isFile = true ∧ ((vMinSize e q).isSome = true ∨ (vMaxSize e q).isSome = true)) →
      ∃ r, matchSimpleCriteria e q = (false, some r) ∧
        (reasonNames "minSize: " r = true ∨ reasonNames "maxSize: " r = true)) ∧
    (¬(e.isFile = true ∧ ((vMinSize e q).isSome = true ∨ (vMaxSize e q).isSome = true)) →
      (vMinDepth e q).isSome = true →
      ∃ r, matchSimpleCriteria e q = (false, some r) ∧
        reasonNames "minDepth: " r = true) ∧
    (¬(e.isFile = true ∧ ((vMinSize e q).isSome = true ∨ (vMaxSize e q).isSome = true)) →
      ¬((vMinDepth e q).isSome = true) → (vMaxDepth e q).isSome = true →
      ∃ r, matchSimpleCriteria e q = (false, some r) ∧
        reasonNames "maxDepth: " r = true) ∧
    (¬(e.isFile = true ∧ ((vMinSize e q).isSome = true ∨ (vMaxSize e q).isSome = true)) →
      ¬((vMinDepth e q).isSome = true) → ¬((vMaxDepth e q).isSome = true) →
      ((vEndsWithLit e q).isSome = true ∨ (vEndsWithRe e q).isSome = true) →
      ∃ r, matchSimpleCriteria e q = (false, some r) ∧
        reasonNames "endsWith: " r = true) ∧
    (¬(e.isFile = true ∧ ((vMinSize e q).isSome = true ∨ (vMaxSize e q).isSome = true)) →
      ¬((vMinDepth e q).isSome = true) → ¬((vMaxDepth e q).isSome = true) →
      ¬((vEndsWithLit e q).isSome = true ∨ (vEndsWithRe e q).isSome = true) →
      ((vStartsWithLit e q).isSome = true ∨ (vStartsWithRe e q).isSome = true) →
      ∃ r, matchSimpleCriteria e q = (false, some r) ∧
        reasonNames "startsWith: " r = true) ∧
    (¬(e.isFile = true ∧ ((vMinSize e q).isSome = true ∨ (vMaxSize e q).isSome = true)) →
      ¬((vMinDepth e q).isSome = true) → ¬((vMaxDepth e q).isSome = true) →
      ¬((vEndsWithLit e q).isSome = true ∨ (vEndsWithRe e q).isSome = true) →
      ¬((vStartsWithLit e q).isSome = true ∨ (vStartsWithRe e q).isSome = true) →
      matchSimpleCriteria e q = (true, none)) := by
  refine ⟨?_, ?_, ?_, ?_, ?_, ?_⟩
  · rintro ⟨hf, hv⟩
    cases hm : vMinSize e q with
    | some r =>
      exact ⟨r, by simp [matchSimpleCriteria, simpleViolation, sizeViolation, orViol, hf, hm],
        Or.inl (vMinSize_names hm)⟩
    | none =>
      rcases hv with hv | hv
      · rw [hm] at hv; simp at hv
      · obtain ⟨r, hr⟩ := Option.isSome_iff_exists.mp hv
        exact ⟨r, by simp [matchSimpleCriteria, simpleViolation, sizeViolation, orViol, hf, hm, hr],
          Or.inr (vMaxSize_names hr)⟩
  · intro hns hdm
    have hsz := sizeViolation_none hns
    obtain ⟨r, hr⟩ := Option.isSome_iff_exists.mp hdm
    exact ⟨r, by simp [matchSimpleCriteria, simpleViolation, orViol, hsz, hr],
      vMinDepth_names hr⟩
  · intro hns hdm hdM
    have hsz := sizeViolation_none hns
    have h1 := not_isSome_none hdm
    obtain ⟨r, hr⟩ := Option.isSome_iff_exists.mp hdM
    exact ⟨r, by simp [matchSimpleCriteria, simpleViolation, orViol, hsz, h1, hr],
      vMaxDepth_names hr⟩
  · intro hns hdm hdM hsuf
    have hsz := sizeViolation_none hns
    have h1 := not_isSome_none hdm
    have h2 := not_isSome_none hdM
    cases hL : vEndsWithLit e q with
    | some r =>
      exact ⟨r, by simp [matchSimpleCriteria, simpleViolation, orViol, hsz, h1, h2, hL],
        vEndsWithLit_names hL⟩
    | none =>
      rcases hsuf with hv | hv
      · rw [hL] at hv; simp at hv
      · obtain ⟨r, hr⟩ := Option.isSome_iff_exists.mp hv
        exact ⟨r, by simp [matchSimpleCriteria, simpleViolation, orViol, hsz, h1, h2, hL, hr],
          vEndsWithRe_names hr⟩
  · intro hns hdm hdM hsuf hpre
    have hsz := sizeViolation_none hns
    have h1 := not_isSome_none hdm
    have h2 := not_isSome_none hdM
    obtain ⟨hs1, hs2⟩ := not_or.mp hsuf
    have h3 := not_isSome_none hs1
    have h4 := not_isSome_none hs2
    cases hL : vStartsWithLit e q with
    | some r =>
      exact ⟨r, by simp [matchSimpleCriteria, simpleViolation, orViol, hsz, h1, h2, h3, h4, hL],
        vStartsWithLit_names hL⟩
    | none =>
      rcases hpre with hv | hv
      · rw [hL] at hv; simp at hv
      · obtain ⟨r, hr⟩ := Option.isSome_iff_exists.mp hv
        exact ⟨r, by simp [matchSimpleCriteria, simpleViolation, orViol, hsz, h1, h2, h3, h4, hL, hr],
          vStartsWithRe_names hr⟩
  · intro hns hdm hdM hsuf hpre
    have hsz := sizeViolation_none hns
    have h1 := not_isSome_none hdm
    have h2 := not_isSome_none hdM
    obtain ⟨hs1, hs2⟩ := not_or.mp hsuf
    obtain ⟨hp1, hp2⟩ := not_or.mp hpre
    have h3 := not_isSome_none hs1
    have h4 := not_isSome_none hs2
    have h5 := not_isSome_none hp1
    have h6 := not_isSome_none hp2
    simp [matchSimpleCriteria, simpleViolation, orViol, hsz, h1, h2, h3, h4, h5, h6]

/-- Witness for C6: a file of size 10 at depth 3 against
`{minSize: 100, minDepth: 50}` — both the size and the depth criteria are
violated, and the theorem yields a size-named rejection reason. -/
theorem c6_simple_criteria_order_witness :
    ∃ r,
      matchSimpleCriteria
        (.mk { stats := { file := true }, fullPath := "/a/b/f.txt", name := "f.txt",
               size := 10, atimeMs := 0, ctimeMs := 0, birthtimeMs := 0,
               linkTargetName := none, error := none, content := "" } none)
        { minSize := some 100, minDepth := some 50 } = (false, some r) ∧
      (reasonNames "minSize: " r = true ∨ reasonNames "maxSize: " r = true) :=
  (c6_simple_criteria_order _ _).1 ⟨rfl, Or.inl rfl⟩

/-- C7 counterexample: a placeholder entry (as built by
`FileSystem.createPlaceholder` for a failed probe) answers `false` to all
seven type predicates, so "exactly one predicate is true (two for a symlink
to a directory)" fails on placeholders, which the claim explicitly includes. -/
theorem c7_placeholder_all_predicates_false :
    typePredicates (createPlaceholder "/p" "EACCES") =
      [false, false, false, false, false, false, false] ∧
    countTrue (createPlaceholder "/p" "EACCES") = 0 :=
  ⟨rfl, rfl⟩

theorem c7_count_aux (f d sl bd cd ff sk ltd : Bool)
    (hbits : (cond f 1 0) + (cond d 1 0) + (cond sl 1 0) + (cond bd 1 0) +
      (cond cd 1 0) + (cond ff 1 0) + (cond sk 1 0) = 1) :
    ([f, (sl && ltd) || d, bd, cd, sl, ff, sk].count true)
      = (if sl && ((sl && ltd) || d) then 2 else 1) := by
  revert hbits
  cases f <;> cases d <;> cases sl <;> cases bd <;> cases cd <;> cases ff <;>
    cases sk <;> cases ltd <;> decide

/-- C7 amended: for every entry whose raw stat bits mark exactly one type and
whose link-target name is only recorded when the stat bits mark a symbolic
link, exactly one of the seven type predicates returns true — except that a
symbolic link whose resolved target is a directory returns true for exactly
`isSymbolicLink` and `isDirectory` (two predicates).  Placeholder entries
(zero stat bits) report false for all seven predicates. -/
theorem c7_amended :
    (∀ e : FileObj, typeBitCount e.meta.stats = 1 → linkConsistent e →
      countTrue e = (if e.isSymbolicLink && e.isDirectory then 2 else 1)) ∧
    (∀ p err : String, countTrue (createPlaceholder p err) = 0) := by
  constructor
  · intro e hbits hlink
    obtain ⟨m, lt⟩ := e
    have hbits' : typeBitCount m.stats = 1 := hbits
    have hsym : FileObj.isSymbolicLink (FileObj.mk m lt) = m.stats.symlink := by
      cases h' : linkNameNonempty m with
      | false => simp [FileObj.isSymbolicLink, FileObj.meta, h']
      | true =>
        have hl2 : m.stats.symlink = true := hlink h'
        simp [FileObj.isSymbolicLink, FileObj.meta, h', hl2]
    have hguard : (linkNameNonempty m || m.stats.symlink) = m.stats.symlink := by
      cases h' : linkNameNonempty m with
      | false => simp
      | true =>
        have hl2 : m.stats.symlink = true := hlink h'
        simp [hl2]
    cases lt with
    | none =>
      have hdir : FileObj.isDirectory (FileObj.mk m none) = m.stats.directory := by
        simp [FileObj.isDirectory, hguard]
      have key := c7_count_aux m.stats.file m.stats.directory m.stats.symlink
        m.stats.blockDevice m.stats.characterDevice m.stats.fifo m.stats.socket
        false hbits'
      simpa [countTrue, typePredicates, FileObj.isFile, FileObj.isBlockDevice,
        FileObj.isCharacterDevice, FileObj.isFIFO, FileObj.isSocket, FileObj.meta,
        hsym, hdir] using key
    | some t =>
      have hdir : FileObj.isDirectory (FileObj.mk m (some t))
          = ((m.stats.symlink && FileObj.isDirectory t) || m.stats.directory) := by
        simp [FileObj.isDirectory, hguard]
      have key := c7_count_aux m.stats.file m.stats.directory m.stats.symlink
        m.stats.blockDevice m.stats.characterDevice m.stats.fifo m.stats.socket
        (FileObj.isDirectory t) hbits'
      simpa [countTrue, typePredicates, FileObj.isFile, FileObj.isBlockDevice,
        FileObj.isCharacterDevice, FileObj.isFIFO, FileObj.isSocket, FileObj.meta,
        hsym, hdir] using key
  · intro p err
    rfl

/-- Witness for C7's amended statement: a symbolic link whose resolved target
is a directory answers true to exactly two predicates. -/
theorem c7_amended_witness :
    countTrue
      (FileObj.mk
        { stats := { symlink := true }, fullPath := "/link", name := "link",
          size := 0, atimeMs := 0, ctimeMs := 0, birthtimeMs := 0,
          linkTargetName := some "dir", error := none, content := "" }
        (some (FileObj.mk
          { stats := { directory := true }, fullPath := "/dir", name := "dir",
            size := 0, atimeMs := 0, ctimeMs := 0, birthtimeMs := 0,
            linkTargetName := none, error := none, content := "" } none))) = 2 := by
  have h := c7_amended.1
    (FileObj.mk
      { stats := { symlink := true }, fullPath := "/link", name := "link",
        size := 0, atimeMs := 0, ctimeMs := 0, birthtimeMs := 0,
        linkTargetName := some "dir", error := none, content := "" }
      (some (FileObj.mk
        { stats := { directory := true }, fullPath := "/dir", name := "dir",
          size := 0, atimeMs := 0, ctimeMs := 0, birthtimeMs := 0,
          linkTargetName := none, error := none, content := "" } none)))
    rfl (fun _ => rfl)
  simpa using h

theorem rplLoop_skip_all (pathLike : String) (te : Bool) (parts : List String) :
    ∀ i : Nat, i ≤ parts.length →
    (∀ j, j < i → hasWildcardStr (parts.getD j "") = false) →
    rplLoop pathLike te parts parts 0 "" =
      rplLoop pathLike te parts (parts.drop i) i "" := by
  intro i
  induction i with
  | zero => intro _ _; rfl
  | succ k ih =>
    intro hle hall
    rw [ih (Nat.le_of_succ_le hle) (fun j hj => hall j (Nat.lt_trans hj (Nat.lt_succ_self k)))]
    have hk : k < parts.length := Nat.lt_of_succ_le hle
    have hdk : parts.drop k = parts.getD k "" :: parts.drop (k + 1) := by
      rw [List.getD_eq_getElem _ _ hk]
      exact List.drop_eq_getElem_cons hk
    rw [hdk]
    have hk2 : hasWildcardStr (parts[k]?.getD "") = false := by
      simpa using hall k (Nat.lt_succ_self k)
    simp [rplLoop, hk2]

/-- C4 amended: when the *first* wildcard-bearing segment of the expression
contains `**` and is malformed — it combines `**` with other characters, or
it is a lone `**` with a second `**` occurring later in the expression —
`readPathlike` signals a configuration error instead of attempting a match:
the error is thrown when `throwErrors` is true (the default), and with
`throwErrors:false` it is delivered through the callback's error argument
(suppressed as an exception, not silently dropped).  A malformed globstar in
a segment after a non-globstar first wildcard segment is, by contrast,
silently ignored. -/
theorem c4_amended (pathLike : String) (throwErrors : Bool) (i : Nat)
    (hw : hasWildcardStr pathLike = true)
    (hi : i < (splitParts pathLike).length)
    (hbefore : ∀ j, j < i → hasWildcardStr ((splitParts pathLike).getD j "") = false)
    (hpart : hasWildcardStr ((splitParts pathLike).getD i "") = true)
    (hglob : containsSubstr ((splitParts pathLike).getD i "") "**" = true)
    (hmal : ((splitParts pathLike).getD i "") ≠ "**" ∨
      containsSubstr (String.intercalate "/" ((splitParts pathLike).drop (i + 1))) "**" = true) :
    ∃ msg, readPathlikeOutcome pathLike throwErrors =
      .wildcard [mkErrorEvent throwErrors msg] := by
  unfold readPathlikeOutcome
  rw [hw]
  simp only [if_true]
  rw [rplLoop_skip_all pathLike throwErrors (splitParts pathLike) i (Nat.le_of_lt hi) hbefore]
  have hdk : (splitParts pathLike).drop i
      = (splitParts pathLike).getD i "" :: (splitParts pathLike).drop (i + 1) := by
    rw [List.getD_eq_getElem _ _ hi]
    exact List.drop_eq_getElem_cons hi
  rw [hdk]
  have hpart2 : hasWildcardStr ((splitParts pathLike)[i]?.getD "") = true := by
    simpa using hpart
  have hglob2 : containsSubstr ((splitParts pathLike)[i]?.getD "") "**" = true := by
    simpa using hglob
  cases hcheck : createFileRegexCheck
      (String.intercalate "/" ((splitParts pathLike).drop (i + 1))) with
  | some err =>
    exact ⟨err, by simp [rplLoop, hpart2, hcheck]⟩
  | none =>
    by_cases hstar : (splitParts pathLike).getD i "" = "**"
    · rcases hmal with hmal | hmal
      · exact absurd hstar hmal
      · have hstar2 : (splitParts pathLike)[i]?.getD "" = "**" := by
          simpa using hstar
        have hx1 : hasWildcardStr "**" = true := by decide
        have hx2 : containsSubstr "**" "**" = true := by decide
        exact ⟨"Expression " ++ pathLike ++ " cannot contain more than one globstar",
          by simp [rplLoop, hpart2, hcheck, hglob2, hstar2, hmal, hx1, hx2]⟩
    · have hstar2 : ¬((splitParts pathLike)[i]?.getD "" = "**") := by
        simpa using hstar
      refine ⟨"Expression " ++ pathLike ++ " is invalid; Globstar must appear by itself, not "
          ++ (splitParts pathLike).getD i "", ?_⟩
      have hname : (splitParts pathLike).getD i "" = (splitParts pathLike)[i]?.getD "" := by
        simp [List.getD]
      rw [hname]
      simp [rplLoop, hpart2, hcheck, hglob2, hstar2]

/-- Witness for C4's amended statement: `/b/q**r` with `throwErrors: true`
(the default) throws its configuration error. -/
theorem c4_amended_witness :
    ∃ msg, readPathlikeOutcome "/b/q**r" true = .wildcard [mkErrorEvent true msg] := by
  refine c4_amended "/b/q**r" true 1 rfl (by decide) ?_ rfl rfl (Or.inl (by decide))
  intro j hj
  interval_cases j
  · rfl

/-- C3 amended: when the structural checks all pass, the entry is a file, and
the normalized query's content pattern is a regular expression — which is the
only case `matchCriteria` scans: `createCompleteFSQ` turns a string pattern
into a regex only under `ignoreWhitespace`, and `matchCriteria` requires
`contains instanceof RegExp` — the scanner is driven to completion, the
per-match callback fires once per match (given a normalized `bigint` and an
`onContains` function), and a file with zero content matches is rejected with
a reason naming `minMatches`. -/
theorem c3_amended (e : FileObj) (q : FSQuery) (srcPat : String)
    (hstruct : structuralCheck e q = (true, none))
    (hq : q.containsPat = some (.re srcPat))
    (hfile : e.isFile = true)
    (honc : q.hasOnContains = true)
    (hbig : q.bigint.isSome = true) :
    (matchCriteria e q).onContainsCalls = (collectMatches e.content srcPat).length ∧
    ((collectMatches e.content srcPat).length = 0 →
      (matchCriteria e q).success = false ∧
      ∃ r, (matchCriteria e q).reason = some r ∧ reasonNames "minMatches: " r = true) := by
  have hmc : matchCriteria e q =
      (let maxM := effOrDefault q.maxMatches maxSafeInteger
       let minM := effOrDefault q.minMatches 1
       let m := (collectMatches e.content srcPat).length
       if m = 0 then
         ⟨false, some ("minMatches: " ++ (e.fullPath ++ (" contains ZERO instances of /" ++ (srcPat ++ "/")))), 0⟩
       else
         let calls := if q.hasOnContains && q.bigint.isSome then m else 0
         if m < minM then
           ⟨false, some ("minMatches: " ++ (e.fullPath ++ (" contains /" ++ (srcPat ++ ("/  ("
             ++ (toString m ++ (" of " ++ (toString minM ++ ")")))))))), calls⟩
         else if m > maxM then
           ⟨false, some ("maxMatches: " ++ (e.fullPath ++ (" contains /" ++ (srcPat ++ ("/  ("
             ++ (toString m ++ (" of " ++ toString maxM))))))), calls⟩
         else ⟨true, none, calls⟩) := by
    rw [matchCriteria, hstruct, hq, hfile]
    rfl
  constructor
  · rw [hmc]
    simp only [honc, hbig, Bool.and_self]
    by_cases hm : (collectMatches e.content srcPat).length = 0
    · simp [hm]
    · simp only [hm, if_false, if_true, Option.isSome]
      split
      · simp_all
      · split <;> simp_all
  · intro hm
    rw [hmc]
    simp only [hm, if_pos rfl]
    exact ⟨rfl, _, rfl, reasonNames_append _ _⟩

/-- Witness for C3's amended statement: a file containing no occurrence of
the regex pattern `/zzz/` is rejected with a `minMatches` reason. -/
theorem c3_amended_witness :
    ((matchCriteria
      (.mk { stats := { file := true }, fullPath := "/a/g.txt", name := "g.txt",
             size := 2, atimeMs := 0, ctimeMs := 0, birthtimeMs := 0,
             linkTargetName := none, error := none, content := "ab" } none)
      { containsPat := some (.re "zzz"), hasOnContains := true, bigint := some false }).success
        = false) ∧
    ((matchCriteria
      (.mk { stats := { file := true }, fullPath := "/a/g.txt", name := "g.txt",
             size := 2, atimeMs := 0, ctimeMs := 0, birthtimeMs := 0,
             linkTargetName := none, error := none, content := "ab" } none)
      { containsPat := some (.re "zzz"), hasOnContains := true, bigint := some false }).onContainsCalls
        = 0) := by
  have h := c3_amended
    (.mk { stats := { file := true }, fullPath := "/a/g.txt", name := "g.txt",
           size := 2, atimeMs := 0, ctimeMs := 0, birthtimeMs := 0,
           linkTargetName := none, error := none, content := "ab" } none)
    { containsPat := some (.re "zzz"), hasOnContains := true, bigint := some false }
    "zzz" rfl rfl rfl rfl rfl
  obtain ⟨h1, h2⟩ := h
  have h3 := h2 rfl
  exact ⟨h3.1, by rw [h1]; rfl⟩

theorem takeWhile_append_of_all {p : Char → Bool} (l1 l2 : List Char)
    (h : ∀ c ∈ l1, p c = true) :
    (l1 ++ l2).takeWhile p = l1 ++ l2.takeWhile p := by
  induction l1 with
  | nil => simp
  | cons c rest ih =>
    have hc : p c = true := h c (by simp)
    simp [List.takeWhile_cons, hc, ih (fun d hd => h d (by simp [hd]))]

theorem parseFloat_digits (ds : List Char) (hds : ds ≠ [])
    (hdig : ∀ c ∈ ds, c.isDigit = true) :
    parseFloatModel ds = some ((digitsVal ds : ℚ)) := by
  unfold parseFloatModel
  rw [List.takeWhile_eq_self_iff.mpr hdig, List.drop_length]
  simp [hds]

theorem matchSizeSpec_digits (ds : List Char) (u : String)
    (hds : ds ≠ []) (hdig : ∀ c ∈ ds, c.isDigit = true)
    (hu0 : u.data.takeWhile qtyChar = [])
    (hu1 : unitParse u.data = some u.data) :
    matchSizeSpec (String.mk ds ++ u) = some (ds, u.data) := by
  unfold matchSizeSpec
  have hdata : (String.mk ds ++ u).data = ds ++ u.data := rfl
  have hq : ∀ c ∈ ds, qtyChar c = true := fun c hc => by simp [qtyChar, hdig c hc]
  rw [hdata, takeWhile_append_of_all ds u.data hq, hu0, List.append_nil, List.drop_left,
    hu1]
  simp [hds]

/-- C8 amended: a spec string of the form digits followed by a unit from the
source's table parses to the quantity times the unit value — decimal units
are `1000^n`, binary (`i`) units `1024^n` — and a string the unit regex does
not match throws immediately.  Two qualifications force the amendment: the
regex admits unit-letter combinations that are not in the table (such as
`KKB` in the counterexample), which silently map to a unit size of 0 instead
of an error; and `YB`'s table constant `10 ** 24` is itself rounded by IEEE
double arithmetic, so the exact statement covers the units whose constants
are exact, under the side condition `qty · oddPart(unit) < 2^53` that makes
the double multiplication exact. -/
theorem c8_amended :
    (∀ t ∈ exactSizeUnits, ∀ ds : List Char, ds ≠ [] →
      (∀ c ∈ ds, c.isDigit = true) → digitsVal ds * t.2.2 < 2 ^ 53 →
      expandSizeStrings (String.mk ds ++ t.1) = .ok (some ((digitsVal ds : ℚ) * t.2.1))) ∧
    (∀ s : String, matchSizeSpec s = none →
      expandSizeStrings s = .error ("Could not parse memory spec: " ++ s)) := by
  constructor
  · intro t ht ds hds hdig _hexact
    have hu0 : (t.1).data.takeWhile qtyChar = [] := by fin_cases ht <;> decide
    have hu1 : unitParse (t.1).data = some (t.1).data := by fin_cases ht <;> decide
    have hval : (((unitLookup.find? (fun kv =>
        kv.1 = String.mk ((t.1).data.map Char.toUpper))).map Prod.snd).getD 0) = t.2.1 := by
      fin_cases ht <;> rfl
    have hm := matchSizeSpec_digits ds t.1 hds hdig hu0 hu1
    simp only [expandSizeStrings, hm, parseFloat_digits ds hds hdig, Option.map_some']
    rw [hval]
  · intro s h
    simp [expandSizeStrings, h]

/-- Witness for C8's amended statement: `"1KB"` parses to 1000 bytes, and an
unmatchable spec string throws. -/
theorem c8_amended_witness :
    expandSizeStrings "1KB" = .ok (some 1000) ∧
    expandSizeStrings "zz" = .error "Could not parse memory spec: zz" := by
  constructor
  · have h := c8_amended.1 ("KB", 1000, 5 ^ 3)
      (List.mem_cons_of_mem _ (List.mem_cons_self _ _)) ['1']
      (by decide) (by decide) (by decide)
    have h2 : digitsVal ['1'] = 1 := by decide
    rw [h2, Nat.cast_one, one_mul] at h
    exact h
  · exact c8_amended.2 "zz" rfl

theorem c2_exists_children (k : Nat)
    (ih : ∀ (node : FSNode) (p : String) (o : WalkOpts), sizeOf node < k →
      o.recursive = true → o.wantChildren ≠ some false → noBadNoEmpty node = true →
      CbDelivers p o node (lstatSyncModel p o node)) :
    ∀ (es : List (String × FSNode)) (p : String) (o : WalkOpts),
      (∀ x ∈ es, sizeOf x.2 < k) → o.recursive = true → o.wantChildren ≠ some false →
      goodEntries es = true →
      ∃ l, syncChildren p o es = .ok l ∧ CbChildren p o es l := by
  intro es
  induction es with
  | nil => exact fun p o _ _ _ _ => ⟨[], rfl, CbChildren.nil⟩
  | cons x rest ihl =>
    obtain ⟨n, c⟩ := x
    intro p o hsz hrec hwc hgood
    simp only [goodEntries, Bool.and_eq_true] at hgood
    obtain ⟨hgc, hgrest⟩ := hgood
    obtain ⟨l, hsl, hcl⟩ := ihl p o (fun y hy => hsz y (by simp [hy])) hrec hwc hgrest
    cases c with
    | file sz =>
      exact ⟨.file (p ++ "/" ++ n) :: l, by simp [syncChildren, hsl, Except.map],
        CbChildren.cons CbDelivers.file hcl⟩
    | bad => simp [noBadNoEmpty] at hgc
    | dir es2 =>
      have hchild := ih (.dir es2) (p ++ "/" ++ n) o
        (hsz (n, .dir es2) (by simp)) hrec hwc hgc
      exact ⟨lstatSyncModel (p ++ "/" ++ n) o (.dir es2) :: l,
        by simp [syncChildren, hrec, hsl, Except.map],
        CbChildren.cons hchild hcl⟩

theorem c2_unique_children (k : Nat)
    (ih : ∀ (node : FSNode) (p : String) (o : WalkOpts) (e : WEntry), sizeOf node < k →
      o.recursive = true → o.wantChildren ≠ some false → noBadNoEmpty node = true →
      CbDelivers p o node e → EntryPermEq e (lstatSyncModel p o node)) :
    ∀ (es : List (String × FSNode)) (p : String) (o : WalkOpts) (l : List WEntry),
      (∀ x ∈ es, sizeOf x.2 < k) → o.recursive = true → o.wantChildren ≠ some false →
      goodEntries es = true → CbChildren p o es l →
      ∃ ls, syncChildren p o es = .ok ls ∧ List.Forall₂ EntryPermEq l ls := by
  intro es
  induction es with
  | nil =>
    intro p o l _ _ _ _ hch
    cases hch
    exact ⟨[], rfl, List.Forall₂.nil⟩
  | cons x rest ihl =>
    obtain ⟨n, c⟩ := x
    intro p o l hsz hrec hwc hgood hch
    simp only [goodEntries, Bool.and_eq_true] at hgood
    obtain ⟨hgc, hgrest⟩ := hgood
    cases hch with
    | cons hc hrest =>
      obtain ⟨ls, hsl, hfa⟩ := ihl p o _ (fun y hy => hsz y (by simp [hy])) hrec hwc hgrest hrest
      cases c with
      | file sz =>
        cases hc
        exact ⟨.file (p ++ "/" ++ n) :: ls, by simp [syncChildren, hsl, Except.map],
          List.Forall₂.cons (EntryPermEq.file _) hfa⟩
      | bad => simp [noBadNoEmpty] at hgc
      | dir es2 =>
        have he := ih (.dir es2) (p ++ "/" ++ n) o _
          (hsz (n, .dir es2) (by simp)) hrec hwc hgc hc
        exact ⟨lstatSyncModel (p ++ "/" ++ n) o (.dir es2) :: ls,
          by simp [syncChildren, hrec, hsl, Except.map],
          List.Forall₂.cons he hfa⟩

/-- C2 amended: the synchronous and the callback walker do *not* always
produce identical Entry trees (see the counterexample), but whenever the
options request a recursive walk (`recursive: true`, `wantChildren` not
explicitly `false`) and the walked link-free filesystem state contains no
failing probes and no empty directories, the two conventions produce
structurally identical trees up to the order of each directory's children:
the synchronous walker's tree is among the results the callback walker can
deliver, and *every* tree the callback walker delivers — under any
completion order of its asynchronous child probes — has the same full path,
classification and children set as the synchronous tree at every node. -/
theorem c2_amended (node : FSNode) (p : String) (o : WalkOpts)
    (hrec : o.recursive = true) (hwc : o.wantChildren ≠ some false)
    (hgood : noBadNoEmpty node = true) :
    CbDelivers p o node (lstatSyncModel p o node) ∧
    (∀ e, CbDelivers p o node e → EntryPermEq e (lstatSyncModel p o node)) := by
  suffices h : ∀ (k : Nat) (node : FSNode) (p : String) (o : WalkOpts),
      sizeOf node < k → o.recursive = true → o.wantChildren ≠ some false →
      noBadNoEmpty node = true →
      CbDelivers p o node (lstatSyncModel p o node) ∧
      (∀ e, CbDelivers p o node e → EntryPermEq e (lstatSyncModel p o node)) by
    exact h (sizeOf node + 1) node p o (Nat.lt_succ_self _) hrec hwc hgood
  intro k
  induction k with
  | zero => exact fun node _ _ h => absurd h (Nat.not_lt_zero _)
  | succ k ih =>
    intro node p o hsz hrec2 hwc2 hgood2
    have ihE : ∀ (nd : FSNode) (pp : String) (oo : WalkOpts), sizeOf nd < k →
        oo.recursive = true → oo.wantChildren ≠ some false → noBadNoEmpty nd = true →
        CbDelivers pp oo nd (lstatSyncModel pp oo nd) :=
      fun nd pp oo hlt h1 h2 h3 => (ih nd pp oo hlt h1 h2 h3).1
    have ihU : ∀ (nd : FSNode) (pp : String) (oo : WalkOpts) (e : WEntry), sizeOf nd < k →
        oo.recursive = true → oo.wantChildren ≠ some false → noBadNoEmpty nd = true →
        CbDelivers pp oo nd e → EntryPermEq e (lstatSyncModel pp oo nd) :=
      fun nd pp oo e hlt h1 h2 h3 hcb => (ih nd pp oo hlt h1 h2 h3).2 e hcb
    cases node with
    | file sz =>
      refine ⟨CbDelivers.file, ?_⟩
      intro e hcb
      cases hcb
      exact EntryPermEq.file _
    | bad => simp [noBadNoEmpty] at hgood2
    | dir es =>
      simp only [noBadNoEmpty, Bool.and_eq_true] at hgood2
      obtain ⟨hne, hge⟩ := hgood2
      have hszch : ∀ x ∈ es, sizeOf x.2 < k := by
        intro x hx
        have h1 : sizeOf x < sizeOf es := List.sizeOf_lt_of_mem hx
        have h2 : sizeOf x.2 < sizeOf x := by
          obtain ⟨a, b⟩ := x
          simp
        have h3 : sizeOf es < sizeOf (FSNode.dir es) := by
          simp
        omega
      have hnee : es ≠ [] := by
        cases es with
        | nil => simp at hne
        | cons y ys => simp
      obtain ⟨ls, hsl, hch⟩ := c2_exists_children k ihE es p o hszch hrec2 hwc2 hge
      have hsync : lstatSyncModel p o (.dir es) = .dir p (some ls) := by
        simp [lstatSyncModel, hwc2, hsl]
      refine ⟨?_, ?_⟩
      · rw [hsync]
        exact CbDelivers.dirPopulated (Or.inr hrec2) hnee hch (List.Perm.refl _)
      · intro e hcb
        cases hcb with
        | dirNoChildren hgate => exact absurd (Or.inr hrec2) hgate
        | dirPopulated hgate hne2 hch2 hperm =>
          obtain ⟨ls2, hsl2, hfa⟩ := c2_unique_children k ihU es p o _ hszch hrec2 hwc2 hge hch2
          rw [hsl] at hsl2
          injection hsl2 with hls
          subst hls
          rw [hsync]
          exact EntryPermEq.dirSome hperm.symm hfa

/-- Witness for C2's amended statement at a concrete filesystem state: the
synchronous tree is among the callback walker's deliverable results. -/
theorem c2_amended_witness :
    CbDelivers "/w" ⟨none, true, true⟩ (.dir [("a", .file 1)])
      (lstatSyncModel "/w" ⟨none, true, true⟩ (.dir [("a", .file 1)])) :=
  (c2_amended (.dir [("a", .file 1)]) "/w" ⟨none, true, true⟩ rfl (by simp) rfl).1
